import Mathlib

/-!
Verification of `src/webmacs/keyboardhandler.py`: the key-sequence dispatch
state machine (`KeyEater`), the focus-driven keymap context switcher
(`LocalKeymapSetter`) and the module-level accessors.

The collaborators imported from `.keymaps` (`KeyPress`, `CHAR2KEY`,
`global_key_map`) and the command registry `COMMANDS` are not part of the
given sources, so they are modelled from the specification at their boundary
(each such definition says so in its doc comment).  Everything else is a
direct translation of the Python code in `keyboardhandler.py`.
-/

namespace Webmacs

/-- Modelled from the spec: a keyboard modifier (subset of
\x7bControl, Alt, Shift, Meta\x7d); `KeyPress` carries a set of these. -/
inductive Modifier
  | control
  | alt
  | shift
  | meta
deriving DecidableEq, Repr

/-- Modelled from the spec: `KeyPress` (from the missing `.keymaps` module) is
a key identifier plus a modifier set, equal iff both components are equal
(structural equality below), immutable once constructed. -/
structure KeyPress where
  key : Nat
  modifiers : List Modifier
deriving DecidableEq, Repr

/-- Modelled from the spec: `KeyPress.has_any_modifier` tells whether the
modifier set is nonempty. -/
def has_any_modifier (k : KeyPress) : Bool :=
  !k.modifiers.isEmpty

/-- Modelled from the spec: `CHAR2KEY` restricted to what the dispatcher
needs — an injective character-to-key-code map; we use the character code
itself, so digits '0'..'9' get codes 48..57 and 'u' gets 117. -/
def char2key (c : Char) : Nat :=
  c.toNat

/-- Modelled from the spec: `KeyPress.from_str "C-u"` — the reserved
universal key, key code of 'u' with the Control modifier
(`KeyEater.__init__`, line 79). -/
def universalKey : KeyPress :=
  { key := char2key 'u', modifiers := [Modifier.control] }

/-- The key press produced by a digit key with no modifiers; `digitKey d` has
the key code `CHAR2KEY` assigns to the digit character of `d`. -/
def digitKey (d : Fin 10) : KeyPress :=
  { key := 48 + d.val, modifiers := [] }

/-- `KeyEater._allowed_universal_keys` (lines 82-84) as a lookup.  The dict
has one entry per digit key code `CHAR2KEY[c]` for `c` in "1234567890", but
each stored value is the closure `lambda: self._num_update_prefix_arg(i)`
which late-binds the loop variable `i`: at call time `i` holds the loop's
final character "0", so every entry folds the digit 0, whichever digit key
was pressed.  The lookup therefore returns `some 0` for any digit key code
(the argument the closure passes) and `none` for every other key code. -/
def allowed_universal_digit (k : Nat) : Option Nat :=
  if 48 ≤ k ∧ k ≤ 57 then Option.some 0 else Option.none

/-- `self._prefix_arg`: Python `None`, an `int` built from digits, or the
single-element multiplier tuple `(n,)`. -/
inductive PrefixArg
  | none
  | intVal (n : Nat)
  | tupleVal (n : Nat)
deriving DecidableEq, Repr

/-- `KeyEater._num_update_prefix_arg` (lines 117-121): if the current prefix
argument is not an `int`, it becomes `int(numstr)`; otherwise
`int(str(self._prefix_arg) + numstr)`, i.e. the decimal append `n * 10 + d`
(the stored int is always a nonnegative decimal numeral built from digits). -/
def num_update_prefix_arg (p : PrefixArg) (d : Nat) : PrefixArg :=
  match p with
  | PrefixArg.intVal n => PrefixArg.intVal (n * 10 + d)
  | _ => PrefixArg.intVal d

/-- A command bound in a keymap: either a direct callable (identified by a
numeral) or a name to be resolved through the command registry at call time
(`KeyEater._call_command`, lines 172-179). -/
inductive Command
  | direct (f : Nat)
  | named (name : String)
deriving DecidableEq, Repr

/-- Result of `keymap.lookup(sequence)` per the collaborator contract:
no match, an incomplete (partial) match, or a complete match carrying the
bound command (`result.complete` / `result.command` in the source). -/
inductive LookupResult
  | noMatch
  | partialMatch
  | completeMatch (cmd : Command)
deriving DecidableEq, Repr

/-- Modelled from the spec: a keymap is consumed only through its pure
`lookup` function over the full ordered pending chord. -/
def Keymap : Type :=
  List KeyPress → LookupResult

/-- Is the lookup result a complete match? (`result.complete` true). -/
def LookupResult.isComplete : LookupResult → Bool
  | LookupResult.completeMatch _ => true
  | _ => false

/-- Is the lookup result a partial match? (`result` not `None` and
`result.complete` false). -/
def LookupResult.isPartialMatch : LookupResult → Bool
  | LookupResult.partialMatch => true
  | _ => false

/-- The mutable state of the `KeyEater` instance (`__init__`, lines 73-84):
pending chord `_keypresses`, local keymap `_local_key_map`, the
`_use_global_keymap` flag, `_prefix_arg`, the deferred `_reset_prefix_arg`
flag and the weak redirection target `current_obj` (modelled by an optional
object identifier).  `self._commands` and the global keymap are passed as
parameters where needed. -/
structure KeyEater where
  keypresses : List KeyPress
  localKeyMap : Option Keymap
  useGlobalKeymap : Bool
  prefixArg : PrefixArg
  resetPrefixArg : Bool
  currentObj : Option Nat

/-- The state `KeyEater.__init__` establishes (lines 73-84). -/
def KeyEater.init : KeyEater :=
  { keypresses := []
    localKeyMap := Option.none
    useGlobalKeymap := true
    prefixArg := PrefixArg.none
    resetPrefixArg := false
    currentObj := Option.none }

/-- `KeyEater.set_local_key_map` (lines 86-88): assigns `_local_key_map`
(the logging call has no state effect). -/
def set_local_key_map (s : KeyEater) (keymap : Option Keymap) : KeyEater :=
  { s with localKeyMap := keymap }

/-- `KeyEater.local_key_map` (lines 90-91). -/
def local_key_map (s : KeyEater) : Option Keymap :=
  s.localKeyMap

/-- `KeyEater.set_global_keymap_enabled` (lines 93-94). -/
def set_global_keymap_enabled (s : KeyEater) (enable : Bool) : KeyEater :=
  { s with useGlobalKeymap := enable }

/-- Module-level `current_prefix_arg` (lines 209-210): a read of
`KEY_EATER._prefix_arg`, with no state change. -/
def current_prefix_arg (s : KeyEater) : PrefixArg :=
  s.prefixArg

/-- `KeyEater.active_keymaps` (lines 104-108): yields the local keymap when
set (Python truthiness of a keymap object), then the global keymap when
`_use_global_keymap` holds. -/
def active_keymaps (s : KeyEater) (gmap : Keymap) : List Keymap :=
  (match s.localKeyMap with
   | Option.some km => [km]
   | Option.none => []) ++
  (if s.useGlobalKeymap then [gmap] else [])

/-- `KeyEater._add_keypress` (lines 110-115): appends the key press to
`self._keypresses`; the `minibuffer_show_info` echo and the log line touch
no dispatcher state.  Note that the echoed list and the chord used for
lookup are one and the same list. -/
def add_keypress (s : KeyEater) (keypress : KeyPress) : KeyEater :=
  { s with keypresses := s.keypresses ++ [keypress] }

/-- Lines 124-126 of `_handle_keypress`: when `_reset_prefix_arg` is set,
clear it and the prefix argument before anything else. -/
def apply_deferred_reset (s : KeyEater) : KeyEater :=
  if s.resetPrefixArg then
    { s with resetPrefixArg := false, prefixArg := PrefixArg.none }
  else s

/-- Lines 128-132 of `_handle_keypress`: the universal-key state update —
multiply an existing multiplier tuple by 4, else start `(4,)` and clear the
pending chord. -/
def universal_step (s : KeyEater) : KeyEater :=
  match s.prefixArg with
  | PrefixArg.tupleVal n => { s with prefixArg := PrefixArg.tupleVal (n * 4) }
  | _ => { s with prefixArg := PrefixArg.tupleVal 4, keypresses := [] }

/-- Lines 136-144 of `_handle_keypress`: the digit-extension guard.  Returns
the digit the stored closure folds when the path is taken: the prefix
argument is open (not `None`), the key code is in `_allowed_universal_keys`,
and the press has no modifier.  Because of the late-bound closures of lines
82-84 the folded digit is always 0.  A digit key pressed with a modifier
falls through to the normal path. -/
def digit_path (s : KeyEater) (k : KeyPress) : Option Nat :=
  if s.prefixArg = PrefixArg.none then Option.none
  else
    match allowed_universal_digit k.key with
    | Option.none => Option.none
    | Option.some d => if has_any_modifier k then Option.none else Option.some d

/-- `KeyEater._call_command` (lines 172-179): a string command is resolved
through the registry; an unknown name raises `KeyError("No such command: …")`,
propagated to the caller.  A non-string command is used directly.  The
returned value is the callable that `command()` invokes. -/
def call_command (commands : String → Option Nat) : Command → Except String Nat
  | Command.direct f => Except.ok f
  | Command.named name =>
    match commands name with
    | Option.some f => Except.ok f
    | Option.none => Except.error ("No such command: " ++ name)

/-- A command invocation performed during one `_handle_keypress` call:
which callable ran, and the prefix argument `current_prefix_arg()` returns
while it runs (`_prefix_arg` is not mutated during the lookup loop). -/
structure CommandCall where
  callee : Nat
  seenPrefixArg : PrefixArg
deriving DecidableEq, Repr

/-- The accumulator of the lookup loop (lines 146-163): the
`incomplete_keychord` and `command_called` flags, the invocations performed,
and the messages of exceptions caught and logged at the dispatch boundary. -/
structure LookupOutcome where
  incomplete : Bool
  called : Bool
  calls : List CommandCall
  errors : List String
deriving DecidableEq, Repr

/-- The `for keymap in self.active_keymaps()` loop (lines 150-163), head
keymap first: a `None` result changes nothing; a partial match sets
`incomplete_keychord`; a complete match calls `_call_command` inside
`try/except` (a raised error is caught and logged) and sets
`command_called` either way. -/
def run_lookups (commands : String → Option Nat) (chord : List KeyPress)
    (pref : PrefixArg) : List Keymap → LookupOutcome
  | [] => { incomplete := false, called := false, calls := [], errors := [] }
  | km :: rest =>
    let head : LookupOutcome :=
      match km chord with
      | LookupResult.noMatch =>
        { incomplete := false, called := false, calls := [], errors := [] }
      | LookupResult.partialMatch =>
        { incomplete := true, called := false, calls := [], errors := [] }
      | LookupResult.completeMatch cmd =>
        match call_command commands cmd with
        | Except.ok f =>
          { incomplete := false, called := true
            calls := [{ callee := f, seenPrefixArg := pref }], errors := [] }
        | Except.error e =>
          { incomplete := false, called := true, calls := [], errors := [e] }
    let tail := run_lookups commands chord pref rest
    { incomplete := head.incomplete || tail.incomplete
      called := head.called || tail.called
      calls := head.calls ++ tail.calls
      errors := head.errors ++ tail.errors }

/-- What one `_handle_keypress` call produces: the new state, the returned
boolean, and the observable side effects (commands invoked, errors logged). -/
structure FeedResult where
  state : KeyEater
  handled : Bool
  calls : List CommandCall
  errors : List String

/-- Lines 146-170 of `_handle_keypress`: the normal lookup path, entered on
a state already past the deferred reset.  Append the key to the pending
chord, query every active keymap with the full chord, then clear the chord
when a command was called or nothing was incomplete, arm the deferred
prefix reset when a command was called, and return
`command_called or incomplete_keychord`. -/
def normal_step (commands : String → Option Nat) (gmap : Keymap)
    (s : KeyEater) (keypress : KeyPress) : FeedResult :=
  let s1 := add_keypress s keypress
  let out := run_lookups commands s1.keypresses s1.prefixArg (active_keymaps s1 gmap)
  let s2 := if out.called || !out.incomplete then { s1 with keypresses := [] } else s1
  let s3 := if out.called then { s2 with resetPrefixArg := true } else s2
  { state := s3, handled := out.called || out.incomplete
    calls := out.calls, errors := out.errors }

/-- `KeyEater._handle_keypress` (lines 123-170): deferred prefix reset
first; then the universal-key path (state update, echo-append of the key,
return `True`); then the digit-extension path (fold the digit, echo-append,
return `True`); otherwise the normal lookup path. -/
def handle_keypress (commands : String → Option Nat) (gmap : Keymap)
    (s0 : KeyEater) (keypress : KeyPress) : FeedResult :=
  let s := apply_deferred_reset s0
  if keypress = universalKey then
    { state := add_keypress (universal_step s) keypress
      handled := true, calls := [], errors := [] }
  else
    match digit_path s keypress with
    | Option.some d =>
      { state := add_keypress { s with prefixArg := num_update_prefix_arg s.prefixArg d } keypress
        handled := true, calls := [], errors := [] }
    | Option.none => normal_step commands gmap s keypress

/-- Feeding a whole sequence of key presses, threading the state. -/
def feed_keys (commands : String → Option Nat) (gmap : Keymap)
    (s : KeyEater) : List KeyPress → KeyEater
  | [] => s
  | k :: ks => feed_keys commands gmap (handle_keypress commands gmap s k).state ks

/-- A key event takes the normal lookup path of `_handle_keypress`: it is
not the universal key, and (on the state past the deferred reset) the
digit-extension guard does not fire. -/
def takes_normal_path (s : KeyEater) (k : KeyPress) : Prop :=
  k ≠ universalKey ∧ digit_path (apply_deferred_reset s) k = Option.none

/-- The mutable state of `LocalKeymapSetter` (`__init__`, lines 12-16): the
registered views and minibuffer inputs, as object identifiers.  (The unused
`_current_obj` slot is omitted.) -/
structure LocalKeymapSetter where
  views : List Nat
  minibufferInputs : List Nat
deriving DecidableEq, Repr

/-- `LocalKeymapSetter.view_destroyed` (lines 22-23): `self._views.remove(view)`
— Python `list.remove` deletes the first occurrence and raises `ValueError`
when the value is absent. -/
def view_destroyed (s : LocalKeymapSetter) (view : Nat) :
    Except String LocalKeymapSetter :=
  if view ∈ s.views then
    Except.ok { s with views := s.views.erase view }
  else
    Except.error "ValueError: list.remove(x): x not in list"

/-- `LocalKeymapSetter._minibuffer_input_destroyed` (lines 30-32):
`self._minibuffer_inputs.remove(minibuffer_input)`, with the same
`list.remove` behaviour. -/
def minibuffer_input_destroyed (s : LocalKeymapSetter) (m : Nat) :
    Except String LocalKeymapSetter :=
  if m ∈ s.minibufferInputs then
    Except.ok { s with minibufferInputs := s.minibufferInputs.erase m }
  else
    Except.error "ValueError: list.remove(x): x not in list"

/-- Modelled from the spec: the part of a buffer the switcher consults —
its normal keymap (`buff.keymap()`) and its dedicated content-edit keymap
(`buff.content_edit_keymap()`). -/
structure Buffer where
  keymap : Keymap
  contentEditKeymap : Keymap

/-- Modelled from the spec: the part of a window the switcher consults —
the buffer of its current web view (`window.current_web_view().buffer()`)
and whether the minibuffer input holds focus
(`window.minibuffer().input().hasFocus()`). -/
structure Window where
  currentBuffer : Buffer
  minibufferInputHasFocus : Bool

/-- `LocalKeymapSetter.web_content_edit_focus_changed` (lines 53-60), acting
on the dispatcher state through the module-level `set_local_keymap`: on
enable, the buffer's content-edit keymap becomes local; on disable the
buffer's normal keymap becomes local unless the minibuffer input has
focus, in which case nothing happens. -/
def web_content_edit_focus_changed (eater : KeyEater) (w : Window)
    (enabled : Bool) : KeyEater :=
  if enabled then
    set_local_key_map eater (Option.some w.currentBuffer.contentEditKeymap)
  else
    if !w.minibufferInputHasFocus then
      set_local_key_map eater (Option.some w.currentBuffer.keymap)
    else
      eater

/-- Python's `isinstance(self._prefix_arg, tuple)` test (line 128). -/
def PrefixArg.isTuple : PrefixArg → Bool
  | PrefixArg.tupleVal _ => true
  | _ => false

/-! Concrete fixtures used to evaluate the development on closed inputs. -/

/-- An empty command registry. -/
def emptyRegistry : String → Option Nat := fun _ => Option.none

/-- A registry resolving only the name "scroll-top", to callable 1. -/
def registry1 : String → Option Nat :=
  fun n => if n = "scroll-top" then Option.some 1 else Option.none

/-- The modifier-free key press for the character 'g'. -/
def gKey : KeyPress := { key := char2key 'g', modifiers := [] }

/-- A keymap with no binding at all. -/
def kmEmpty : Keymap := fun _ => LookupResult.noMatch

/-- A keymap binding the single-key chord "g" to the direct callable 5. -/
def kmG : Keymap :=
  fun chord =>
    if chord = [gKey] then LookupResult.completeMatch (Command.direct 5)
    else LookupResult.noMatch

/-- A keymap binding the chord "g g" to the command name "scroll-top", so the
chord "g" alone is a partial match. -/
def kmGG : Keymap :=
  fun chord =>
    if chord = [gKey, gKey] then LookupResult.completeMatch (Command.named "scroll-top")
    else if chord = [gKey] then LookupResult.partialMatch
    else LookupResult.noMatch

/-- A keymap binding the single-key chord "g" to the direct callable 9. -/
def kmG9 : Keymap :=
  fun chord =>
    if chord = [gKey] then LookupResult.completeMatch (Command.direct 9)
    else LookupResult.noMatch

/-- A keymap binding the single-key chord "g" to the unresolvable command
name "does-not-exist". -/
def kmBad : Keymap :=
  fun chord =>
    if chord = [gKey] then LookupResult.completeMatch (Command.named "does-not-exist")
    else LookupResult.noMatch

/-- A concrete window whose minibuffer input does not hold focus. -/
def window0 : Window :=
  { currentBuffer := { keymap := kmG, contentEditKeymap := kmGG }
    minibufferInputHasFocus := false }

/-- A concrete window whose minibuffer input holds focus. -/
def window1 : Window :=
  { currentBuffer := { keymap := kmG, contentEditKeymap := kmGG }
    minibufferInputHasFocus := true }

/-! Helper lemmas about the embedding, shared by the claim theorems. -/

theorem adr_keypresses (s : KeyEater) :
    (apply_deferred_reset s).keypresses = s.keypresses := by
  unfold apply_deferred_reset
  split <;> rfl

theorem adr_active (s : KeyEater) (gmap : Keymap) :
    active_keymaps (apply_deferred_reset s) gmap = active_keymaps s gmap := by
  unfold apply_deferred_reset
  split <;> rfl

theorem handle_normal (commands : String → Option Nat) (gmap : Keymap)
    (s : KeyEater) (k : KeyPress) (h : takes_normal_path s k) :
    handle_keypress commands gmap s k
      = normal_step commands gmap (apply_deferred_reset s) k := by
  unfold handle_keypress
  rw [if_neg h.1, h.2]

theorem run_lookups_called (commands : String → Option Nat)
    (chord : List KeyPress) (pref : PrefixArg) (kms : List Keymap) :
    (run_lookups commands chord pref kms).called
      = kms.any (fun km => (km chord).isComplete) := by
  induction kms with
  | nil => rfl
  | cons km rest ih =>
    simp only [run_lookups, List.any_cons, ← ih]
    cases hr : km chord with
    | noMatch => simp [LookupResult.isComplete]
    | partialMatch => simp [LookupResult.isComplete]
    | completeMatch cmd =>
      cases hc : call_command commands cmd <;> simp [hc, LookupResult.isComplete]

theorem run_lookups_incomplete (commands : String → Option Nat)
    (chord : List KeyPress) (pref : PrefixArg) (kms : List Keymap) :
    (run_lookups commands chord pref kms).incomplete
      = kms.any (fun km => (km chord).isPartialMatch) := by
  induction kms with
  | nil => rfl
  | cons km rest ih =>
    simp only [run_lookups, List.any_cons, ← ih]
    cases hr : km chord with
    | noMatch => simp [LookupResult.isPartialMatch]
    | partialMatch => simp [LookupResult.isPartialMatch]
    | completeMatch cmd =>
      cases hc : call_command commands cmd <;> simp [hc, LookupResult.isPartialMatch]

theorem run_lookups_seen (commands : String → Option Nat)
    (chord : List KeyPress) (pref : PrefixArg) (kms : List Keymap) :
    ∀ cc ∈ (run_lookups commands chord pref kms).calls, cc.seenPrefixArg = pref := by
  induction kms with
  | nil => intro cc hcc; simp [run_lookups] at hcc
  | cons km rest ih =>
    intro cc hcc
    simp only [run_lookups, List.mem_append] at hcc
    rcases hcc with hcc | hcc
    · cases hr : km chord with
      | noMatch => rw [hr] at hcc; simp at hcc
      | partialMatch => rw [hr] at hcc; simp at hcc
      | completeMatch cmd =>
        rw [hr] at hcc
        cases hc : call_command commands cmd <;> simp [hc] at hcc
        subst hcc
        rfl
    · exact ih cc hcc

theorem handle_universal_tuple (commands : String → Option Nat) (gmap : Keymap)
    (s : KeyEater) (m : Nat)
    (hp : (apply_deferred_reset s).prefixArg = PrefixArg.tupleVal m) :
    (handle_keypress commands gmap s universalKey).state.prefixArg
        = PrefixArg.tupleVal (m * 4)
    ∧ (handle_keypress commands gmap s universalKey).state.resetPrefixArg = false := by
  have hr : (apply_deferred_reset s).resetPrefixArg = false := by
    unfold apply_deferred_reset
    split
    · rfl
    · next h => simpa using h
  unfold handle_keypress universal_step add_keypress
  rw [if_pos rfl, hp]
  exact ⟨rfl, hr⟩

theorem handle_universal_fresh (commands : String → Option Nat) (gmap : Keymap)
    (s : KeyEater)
    (hp : PrefixArg.isTuple (apply_deferred_reset s).prefixArg = false) :
    (handle_keypress commands gmap s universalKey).state.prefixArg
        = PrefixArg.tupleVal 4
    ∧ (handle_keypress commands gmap s universalKey).state.keypresses = [universalKey]
    ∧ (handle_keypress commands gmap s universalKey).state.resetPrefixArg = false := by
  have hr : (apply_deferred_reset s).resetPrefixArg = false := by
    unfold apply_deferred_reset
    split
    · rfl
    · next h => simpa using h
  unfold handle_keypress universal_step add_keypress
  rw [if_pos rfl]
  cases hq : (apply_deferred_reset s).prefixArg with
  | none => exact ⟨rfl, rfl, hr⟩
  | intVal n => exact ⟨rfl, rfl, hr⟩
  | tupleVal n => rw [hq] at hp; simp [PrefixArg.isTuple] at hp

theorem feed_universal_pow (commands : String → Option Nat) (gmap : Keymap) :
    ∀ (n : Nat) (s : KeyEater) (m : Nat),
      s.prefixArg = PrefixArg.tupleVal m → s.resetPrefixArg = false →
      (feed_keys commands gmap s (List.replicate n universalKey)).prefixArg
        = PrefixArg.tupleVal (m * 4 ^ n) := by
  intro n
  induction n with
  | zero => intro s m hp _; simpa [feed_keys] using hp
  | succ n ih =>
    intro s m hp hr
    have hadr : apply_deferred_reset s = s := by
      unfold apply_deferred_reset
      rw [hr]
      simp
    have hp' : (apply_deferred_reset s).prefixArg = PrefixArg.tupleVal m := by
      rw [hadr, hp]
    obtain ⟨h1, h2⟩ := handle_universal_tuple commands gmap s m hp'
    rw [List.replicate_succ, feed_keys, ih _ (m * 4) h1 h2]
    rw [pow_succ]
    ring_nf

/-- C5: pressing the universal key N ≥ 1 times consecutively from the fresh
dispatcher state yields the single-element multiplier tuple `(4^N,)`; the
first press on a state whose (effective) prefix argument is not a multiplier
tuple starts the tuple at 4 and discards the previously pending chord (only
the universal key itself remains in the shared chord/echo list, see C6);
every further press on an open tuple multiplies its value by 4. -/
theorem universal_key_powers_of_four (commands : String → Option Nat)
    (gmap : Keymap) (n : Nat) :
    ((feed_keys commands gmap KeyEater.init
        (List.replicate (n + 1) universalKey)).prefixArg
      = PrefixArg.tupleVal (4 ^ (n + 1)))
    ∧ (∀ s : KeyEater,
        PrefixArg.isTuple (apply_deferred_reset s).prefixArg = false →
        (handle_keypress commands gmap s universalKey).state.prefixArg
            = PrefixArg.tupleVal 4
        ∧ (handle_keypress commands gmap s universalKey).state.keypresses
            = [universalKey])
    ∧ (∀ (s : KeyEater) (m : Nat),
        (apply_deferred_reset s).prefixArg = PrefixArg.tupleVal m →
        (handle_keypress commands gmap s universalKey).state.prefixArg
            = PrefixArg.tupleVal (m * 4)) := by
  refine ⟨?_, ?_, ?_⟩
  · rw [List.replicate_succ, feed_keys]
    obtain ⟨h1, _, h3⟩ := handle_universal_fresh commands gmap KeyEater.init rfl
    rw [feed_universal_pow commands gmap n _ 4 h1 h3]
    rw [pow_succ]
    ring_nf
  · intro s hp
    obtain ⟨h1, h2, _⟩ := handle_universal_fresh commands gmap s hp
    exact ⟨h1, h2⟩
  · intro s m hp
    exact (handle_universal_tuple commands gmap s m hp).1

/-- Witness for C5: three presses from the fresh state give `(64,)`; the
fresh state's prefix argument is no tuple, the first press gives `(4,)` and
chord `[C-u]`; a second press on the open `(4,)` tuple gives `(16,)`. -/
theorem universal_key_powers_of_four_witness :
    ((feed_keys emptyRegistry kmEmpty KeyEater.init
        (List.replicate 3 universalKey)).prefixArg = PrefixArg.tupleVal 64)
    ∧ PrefixArg.isTuple (apply_deferred_reset KeyEater.init).prefixArg = false
    ∧ ((handle_keypress emptyRegistry kmEmpty KeyEater.init universalKey).state.prefixArg
        = PrefixArg.tupleVal 4
      ∧ (handle_keypress emptyRegistry kmEmpty KeyEater.init universalKey).state.keypresses
        = [universalKey])
    ∧ (apply_deferred_reset
        (handle_keypress emptyRegistry kmEmpty KeyEater.init universalKey).state).prefixArg
        = PrefixArg.tupleVal 4
    ∧ (handle_keypress emptyRegistry kmEmpty
        (handle_keypress emptyRegistry kmEmpty KeyEater.init universalKey).state
        universalKey).state.prefixArg = PrefixArg.tupleVal 16 :=
  ⟨(universal_key_powers_of_four emptyRegistry kmEmpty 2).1, rfl,
   (universal_key_powers_of_four emptyRegistry kmEmpty 0).2.1 KeyEater.init rfl, rfl,
   (universal_key_powers_of_four emptyRegistry kmEmpty 0).2.2
     (handle_keypress emptyRegistry kmEmpty KeyEater.init universalKey).state 4 rfl⟩

theorem digitKey_ne_universal (d : Fin 10) : digitKey d ≠ universalKey := by
  simp [digitKey, universalKey, char2key]

theorem adr_id (s : KeyEater) (hr : s.resetPrefixArg = false) :
    apply_deferred_reset s = s := by
  unfold apply_deferred_reset
  rw [hr]
  simp

theorem digit_path_open (s : KeyEater) (d : Fin 10)
    (hne : s.prefixArg ≠ PrefixArg.none) :
    digit_path s (digitKey d) = Option.some 0 := by
  unfold digit_path allowed_universal_digit
  rw [if_neg hne]
  have hd : d.val ≤ 9 := Nat.lt_succ_iff.mp d.isLt
  have h1 : 48 ≤ 48 + d.val ∧ 48 + d.val ≤ 57 := by omega
  rw [digitKey]
  simp only [if_pos h1]
  rfl

theorem handle_digit (commands : String → Option Nat) (gmap : Keymap)
    (s : KeyEater) (d : Fin 10)
    (hne : (apply_deferred_reset s).prefixArg ≠ PrefixArg.none) :
    (handle_keypress commands gmap s (digitKey d)).state.prefixArg
        = num_update_prefix_arg (apply_deferred_reset s).prefixArg 0
    ∧ (handle_keypress commands gmap s (digitKey d)).state.resetPrefixArg = false := by
  have hr : (apply_deferred_reset s).resetPrefixArg = false := by
    unfold apply_deferred_reset
    split
    · rfl
    · next h => simpa using h
  unfold handle_keypress
  rw [if_neg (digitKey_ne_universal d), digit_path_open _ d hne]
  exact ⟨rfl, hr⟩

theorem feed_digits_zero (commands : String → Option Nat) (gmap : Keymap) :
    ∀ (ds : List (Fin 10)) (s : KeyEater),
      s.prefixArg = PrefixArg.intVal 0 → s.resetPrefixArg = false →
      (feed_keys commands gmap s (ds.map digitKey)).prefixArg
        = PrefixArg.intVal 0 := by
  intro ds
  induction ds with
  | nil => intro s hp _; simpa [feed_keys] using hp
  | cons d ds ih =>
    intro s hp hr
    have hne : (apply_deferred_reset s).prefixArg ≠ PrefixArg.none := by
      rw [adr_id s hr, hp]
      intro hcon
      cases hcon
    obtain ⟨h1, h2⟩ := handle_digit commands gmap s d hne
    rw [adr_id s hr, hp] at h1
    have h1' : (handle_keypress commands gmap s (digitKey d)).state.prefixArg
        = PrefixArg.intVal 0 := h1
    rw [List.map_cons, feed_keys, ih _ h1' h2]

/-- C1: the claim says digits pressed after a universal-key press fold
decimally into the prefix argument, "C-u 1 2" giving 12 and "C-u C-u 3 7"
giving 37.  The code refutes this: the ten closures stored by lines 82-84
all late-bind the loop variable `i`, which holds "0" once the loop has run,
so every digit press calls `_num_update_prefix_arg("0")` and folds the
digit 0 — "C-u 1 2" and "C-u C-u 3 7" both leave the prefix argument at
the integer 0, and any nonempty digit sequence after a universal-key press
from the fresh state does the same. -/
theorem digit_closures_fold_zero :
    ((feed_keys emptyRegistry kmEmpty KeyEater.init
        [universalKey, digitKey 1, digitKey 2]).prefixArg = PrefixArg.intVal 0
      ∧ (feed_keys emptyRegistry kmEmpty KeyEater.init
        [universalKey, digitKey 1, digitKey 2]).prefixArg ≠ PrefixArg.intVal 12)
    ∧ ((feed_keys emptyRegistry kmEmpty KeyEater.init
        [universalKey, universalKey, digitKey 3, digitKey 7]).prefixArg
          = PrefixArg.intVal 0
      ∧ (feed_keys emptyRegistry kmEmpty KeyEater.init
        [universalKey, universalKey, digitKey 3, digitKey 7]).prefixArg
          ≠ PrefixArg.intVal 37)
    ∧ (∀ (commands : String → Option Nat) (gmap : Keymap)
        (d : Fin 10) (rest : List (Fin 10)),
        (feed_keys commands gmap KeyEater.init
          (universalKey :: (d :: rest).map digitKey)).prefixArg
          = PrefixArg.intVal 0) := by
  refine ⟨⟨by decide, by decide⟩, ⟨by decide, by decide⟩, ?_⟩
  intro commands gmap d rest
  rw [feed_keys]
  obtain ⟨h1, _, h3⟩ := handle_universal_fresh commands gmap KeyEater.init rfl
  have hne : (apply_deferred_reset
      (handle_keypress commands gmap KeyEater.init universalKey).state).prefixArg
      ≠ PrefixArg.none := by
    rw [adr_id _ h3, h1]
    intro hcon
    cases hcon
  obtain ⟨g1, g2⟩ := handle_digit commands gmap
    (handle_keypress commands gmap KeyEater.init universalKey).state d hne
  rw [adr_id _ h3, h1] at g1
  have g1' : (handle_keypress commands gmap
      (handle_keypress commands gmap KeyEater.init universalKey).state
      (digitKey d)).state.prefixArg = PrefixArg.intVal 0 := g1
  rw [List.map_cons, feed_keys]
  rw [feed_digits_zero commands gmap rest _ g1' g2]

theorem active_add (s : KeyEater) (k : KeyPress) (gmap : Keymap) :
    active_keymaps (add_keypress s k) gmap = active_keymaps s gmap := rfl

theorem add_keypresses (s : KeyEater) (k : KeyPress) :
    (add_keypress s k).keypresses = s.keypresses ++ [k] := rfl

/-- C2: on the normal lookup path, `_handle_keypress` returns true exactly
when some active keymap reports a complete match (a command is called) or
some active keymap reports a partial match; it returns false only on a full
miss in every active keymap, and then the pending chord is empty; when only
partial matches occur, the pending chord keeps all pressed keys in order. -/
theorem normal_return_and_chord (commands : String → Option Nat) (gmap : Keymap)
    (s : KeyEater) (k : KeyPress) (h : takes_normal_path s k) :
    ((handle_keypress commands gmap s k).handled
        = (((active_keymaps s gmap).any
              fun km => (km (s.keypresses ++ [k])).isComplete)
          || ((active_keymaps s gmap).any
              fun km => (km (s.keypresses ++ [k])).isPartialMatch)))
    ∧ ((handle_keypress commands gmap s k).handled = false →
        (handle_keypress commands gmap s k).state.keypresses = [])
    ∧ (((active_keymaps s gmap).any
          (fun km => (km (s.keypresses ++ [k])).isComplete) = false
        ∧ (active_keymaps s gmap).any
          (fun km => (km (s.keypresses ++ [k])).isPartialMatch) = true) →
        (handle_keypress commands gmap s k).state.keypresses
          = s.keypresses ++ [k]) := by
  rw [handle_normal commands gmap s k h]
  have e1 : (add_keypress (apply_deferred_reset s) k).keypresses
      = s.keypresses ++ [k] := by
    rw [add_keypresses, adr_keypresses]
  have e2 : active_keymaps (add_keypress (apply_deferred_reset s) k) gmap
      = active_keymaps s gmap := by
    rw [active_add, adr_active]
  simp only [normal_step, e1, e2, run_lookups_called, run_lookups_incomplete]
  cases hA : (active_keymaps s gmap).any
      (fun km => (km (s.keypresses ++ [k])).isComplete) <;>
    cases hB : (active_keymaps s gmap).any
      (fun km => (km (s.keypresses ++ [k])).isPartialMatch) <;>
    simp [e1]

/-- Witness for C2: from the fresh state (global keymap `kmGG` binding
"g g"), pressing 'g' is a partial match — handled, chord preserved. -/
theorem normal_return_and_chord_witness :
    takes_normal_path KeyEater.init gKey
    ∧ (((handle_keypress registry1 kmGG KeyEater.init gKey).handled
          = (((active_keymaps KeyEater.init kmGG).any
                fun km => (km (KeyEater.init.keypresses ++ [gKey])).isComplete)
            || ((active_keymaps KeyEater.init kmGG).any
                fun km => (km (KeyEater.init.keypresses ++ [gKey])).isPartialMatch)))
      ∧ ((handle_keypress registry1 kmGG KeyEater.init gKey).handled = false →
          (handle_keypress registry1 kmGG KeyEater.init gKey).state.keypresses = [])
      ∧ (((active_keymaps KeyEater.init kmGG).any
            (fun km => (km (KeyEater.init.keypresses ++ [gKey])).isComplete) = false
          ∧ (active_keymaps KeyEater.init kmGG).any
            (fun km => (km (KeyEater.init.keypresses ++ [gKey])).isPartialMatch) = true) →
          (handle_keypress registry1 kmGG KeyEater.init gKey).state.keypresses
            = KeyEater.init.keypresses ++ [gKey])) :=
  ⟨⟨by decide, rfl⟩,
   normal_return_and_chord registry1 kmGG KeyEater.init gKey ⟨by decide, rfl⟩⟩

/-- C3: on the normal path every active keymap is queried with the full
pending chord and there is no early exit: when the local and the global
keymap both report a complete match for the same chord and both commands
resolve, both are invoked, the local one first. -/
theorem both_keymaps_fire (commands : String → Option Nat) (gmap : Keymap)
    (s : KeyEater) (k : KeyPress) (lkm : Keymap) (c1 c2 : Command) (f1 f2 : Nat)
    (h : takes_normal_path s k)
    (hl : s.localKeyMap = Option.some lkm)
    (hg : s.useGlobalKeymap = true)
    (h1 : lkm (s.keypresses ++ [k]) = LookupResult.completeMatch c1)
    (h2 : gmap (s.keypresses ++ [k]) = LookupResult.completeMatch c2)
    (r1 : call_command commands c1 = Except.ok f1)
    (r2 : call_command commands c2 = Except.ok f2) :
    (handle_keypress commands gmap s k).calls
      = [{ callee := f1, seenPrefixArg := (apply_deferred_reset s).prefixArg },
         { callee := f2, seenPrefixArg := (apply_deferred_reset s).prefixArg }] := by
  rw [handle_normal commands gmap s k h]
  have e1 : (add_keypress (apply_deferred_reset s) k).keypresses
      = s.keypresses ++ [k] := by
    rw [add_keypresses, adr_keypresses]
  have e2 : active_keymaps (add_keypress (apply_deferred_reset s) k) gmap
      = [lkm, gmap] := by
    rw [active_add, adr_active]
    unfold active_keymaps
    rw [hl, hg]
    rfl
  have e3 : (add_keypress (apply_deferred_reset s) k).prefixArg
      = (apply_deferred_reset s).prefixArg := rfl
  simp only [normal_step, e1, e2, e3, run_lookups, h1, h2, r1, r2]
  rfl

/-- Witness for C3: local keymap `kmG` (g → callable 5) and global keymap
`kmG9` (g → callable 9) both bind the chord "g"; pressing 'g' invokes both,
local first. -/
theorem both_keymaps_fire_witness :
    takes_normal_path { KeyEater.init with localKeyMap := Option.some kmG } gKey
    ∧ { KeyEater.init with localKeyMap := Option.some kmG }.localKeyMap
        = Option.some kmG
    ∧ { KeyEater.init with localKeyMap := Option.some kmG }.useGlobalKeymap = true
    ∧ kmG ({ KeyEater.init with localKeyMap := Option.some kmG }.keypresses ++ [gKey])
        = LookupResult.completeMatch (Command.direct 5)
    ∧ kmG9 ({ KeyEater.init with localKeyMap := Option.some kmG }.keypresses ++ [gKey])
        = LookupResult.completeMatch (Command.direct 9)
    ∧ call_command registry1 (Command.direct 5) = Except.ok 5
    ∧ call_command registry1 (Command.direct 9) = Except.ok 9
    ∧ (handle_keypress registry1 kmG9
        { KeyEater.init with localKeyMap := Option.some kmG } gKey).calls
      = [{ callee := 5, seenPrefixArg := PrefixArg.none },
         { callee := 9, seenPrefixArg := PrefixArg.none }] :=
  ⟨⟨by decide, rfl⟩, rfl, rfl, rfl, rfl, rfl, rfl,
   both_keymaps_fire registry1 kmG9
     { KeyEater.init with localKeyMap := Option.some kmG } gKey kmG
     (Command.direct 5) (Command.direct 9) 5 9
     ⟨by decide, rfl⟩ rfl rfl rfl rfl rfl rfl⟩

theorem run_lookups_no_call (commands : String → Option Nat)
    (chord : List KeyPress) (pref : PrefixArg) (kms : List Keymap)
    (h : (run_lookups commands chord pref kms).called = false) :
    (run_lookups commands chord pref kms).calls = [] := by
  induction kms with
  | nil => rfl
  | cons km rest ih =>
    simp only [run_lookups, Bool.or_eq_false_iff] at h ⊢
    cases hr : km chord with
    | noMatch =>
      rw [hr] at h
      simp at h ⊢
      exact ih h
    | partialMatch =>
      rw [hr] at h
      simp at h ⊢
      exact ih h
    | completeMatch cmd =>
      rw [hr] at h
      simp only [] at h
      cases hc : call_command commands cmd <;> rw [hc] at h <;> simp at h

/-- C4: on the normal path, every command invoked during the dispatch still
sees the prefix argument through `current_prefix_arg()`: the recorded value
equals the (effective) prefix argument, which the dispatch does not clear —
after the dispatch the state still carries it, the invocation only arms the
deferred-reset flag, the accessor is a pure read of `_prefix_arg`, and the
actual clearing happens only at the start of the next `_handle_keypress`. -/
theorem prefix_readable_until_next_key (commands : String → Option Nat)
    (gmap : Keymap) (s : KeyEater) (k : KeyPress) (h : takes_normal_path s k) :
    (∀ cc ∈ (handle_keypress commands gmap s k).calls,
        cc.seenPrefixArg = (apply_deferred_reset s).prefixArg)
    ∧ (handle_keypress commands gmap s k).state.prefixArg
        = (apply_deferred_reset s).prefixArg
    ∧ ((handle_keypress commands gmap s k).calls ≠ [] →
        (handle_keypress commands gmap s k).state.resetPrefixArg = true)
    ∧ current_prefix_arg (handle_keypress commands gmap s k).state
        = (handle_keypress commands gmap s k).state.prefixArg
    ∧ (∀ (s2 : KeyEater) (k2 : KeyPress), s2.resetPrefixArg = true →
        handle_keypress commands gmap s2 k2
          = handle_keypress commands gmap
              { s2 with prefixArg := PrefixArg.none, resetPrefixArg := false } k2) := by
  rw [handle_normal commands gmap s k h]
  have e3 : (add_keypress (apply_deferred_reset s) k).prefixArg
      = (apply_deferred_reset s).prefixArg := rfl
  refine ⟨?_, ?_, ?_, rfl, ?_⟩
  · intro cc hcc
    simp only [normal_step] at hcc
    exact e3 ▸ run_lookups_seen commands _ _ _ cc hcc
  · simp only [normal_step]
    split <;> split <;> rfl
  · intro hne
    simp only [normal_step] at hne ⊢
    cases hcall : (run_lookups commands (add_keypress (apply_deferred_reset s) k).keypresses
        (add_keypress (apply_deferred_reset s) k).prefixArg
        (active_keymaps (add_keypress (apply_deferred_reset s) k) gmap)).called
    · exact absurd (run_lookups_no_call commands _ _ _ hcall) hne
    · simp [hcall]
  · intro s2 k2 hr2
    have hadr : apply_deferred_reset s2
        = apply_deferred_reset
            { s2 with prefixArg := PrefixArg.none, resetPrefixArg := false } := by
      unfold apply_deferred_reset
      rw [hr2]
      simp
    unfold handle_keypress
    rw [hadr]

/-- Witness for C4: with global keymap `kmG` and prefix argument 12 already
entered, pressing 'g' invokes callable 5, which still sees the value 12; the
state after the dispatch still carries 12 with the deferred flag armed; and
a state with the deferred flag armed is processed exactly like the fresh
state whose prefix argument is already cleared. -/
theorem prefix_readable_until_next_key_witness :
    takes_normal_path { KeyEater.init with prefixArg := PrefixArg.intVal 12 } gKey
    ∧ (∀ cc ∈ (handle_keypress registry1 kmG
          { KeyEater.init with prefixArg := PrefixArg.intVal 12 } gKey).calls,
        cc.seenPrefixArg = PrefixArg.intVal 12)
    ∧ (handle_keypress registry1 kmG
        { KeyEater.init with prefixArg := PrefixArg.intVal 12 } gKey).state.prefixArg
        = PrefixArg.intVal 12
    ∧ ((handle_keypress registry1 kmG
          { KeyEater.init with prefixArg := PrefixArg.intVal 12 } gKey).calls ≠ [] →
        (handle_keypress registry1 kmG
          { KeyEater.init with prefixArg := PrefixArg.intVal 12 } gKey).state.resetPrefixArg
          = true)
    ∧ current_prefix_arg (handle_keypress registry1 kmG
          { KeyEater.init with prefixArg := PrefixArg.intVal 12 } gKey).state
        = (handle_keypress registry1 kmG
            { KeyEater.init with prefixArg := PrefixArg.intVal 12 } gKey).state.prefixArg
    ∧ handle_keypress registry1 kmG { KeyEater.init with prefixArg := PrefixArg.intVal 12, resetPrefixArg := true } gKey
        = handle_keypress registry1 kmG KeyEater.init gKey := by
  have main := prefix_readable_until_next_key registry1 kmG
    { KeyEater.init with prefixArg := PrefixArg.intVal 12 } gKey ⟨by decide, rfl⟩
  exact ⟨⟨by decide, rfl⟩, main.1, main.2.1, main.2.2.1, main.2.2.2.1,
    main.2.2.2.2
      { KeyEater.init with prefixArg := PrefixArg.intVal 12, resetPrefixArg := true }
      gKey rfl⟩

/-- C7: when a complete match resolves to a command name unknown to the
registry, `_call_command` raises the distinct "No such command" error,
propagated to its caller (the dispatch loop) rather than swallowed inside
resolution; the dispatch loop catches and logs it, aborting only that one
dispatch: the keystroke is still reported handled, the chord is reset and
the deferred prefix-reset flag is armed, exactly as if the command had been
called. -/
theorem unknown_command_error (commands : String → Option Nat) (gmap : Keymap)
    (s : KeyEater) (k : KeyPress) (lkm : Keymap) (name : String)
    (h : takes_normal_path s k)
    (hl : s.localKeyMap = Option.some lkm)
    (hg : s.useGlobalKeymap = false)
    (hc : lkm (s.keypresses ++ [k])
        = LookupResult.completeMatch (Command.named name))
    (hr : commands name = Option.none) :
    call_command commands (Command.named name)
        = Except.error ("No such command: " ++ name)
    ∧ (handle_keypress commands gmap s k).errors = ["No such command: " ++ name]
    ∧ (handle_keypress commands gmap s k).calls = []
    ∧ (handle_keypress commands gmap s k).handled = true
    ∧ (handle_keypress commands gmap s k).state.keypresses = []
    ∧ (handle_keypress commands gmap s k).state.resetPrefixArg = true := by
  have hcall : call_command commands (Command.named name)
      = Except.error ("No such command: " ++ name) := by
    simp only [call_command, hr]
  rw [handle_normal commands gmap s k h]
  have e1 : (add_keypress (apply_deferred_reset s) k).keypresses
      = s.keypresses ++ [k] := by
    rw [add_keypresses, adr_keypresses]
  have e2 : active_keymaps (add_keypress (apply_deferred_reset s) k) gmap
      = [lkm] := by
    rw [active_add, adr_active]
    unfold active_keymaps
    rw [hl, hg]
    rfl
  refine ⟨hcall, ?_⟩
  simp only [normal_step, e1, e2, run_lookups, hc, hcall]
  exact ⟨rfl, rfl, rfl, rfl, rfl⟩

/-- Witness for C7: local keymap `kmBad` binds "g" to the unknown name
"does-not-exist"; with the global keymap disabled, pressing 'g' from the
fresh state surfaces the distinct error, invokes nothing, reports the key
handled, resets the chord and arms the deferred prefix reset. -/
theorem unknown_command_error_witness :
    takes_normal_path { KeyEater.init with localKeyMap := Option.some kmBad, useGlobalKeymap := false } gKey
    ∧ { KeyEater.init with localKeyMap := Option.some kmBad, useGlobalKeymap := false }.localKeyMap = Option.some kmBad
    ∧ { KeyEater.init with localKeyMap := Option.some kmBad, useGlobalKeymap := false }.useGlobalKeymap = false
    ∧ kmBad ({ KeyEater.init with localKeyMap := Option.some kmBad, useGlobalKeymap := false }.keypresses ++ [gKey])
        = LookupResult.completeMatch (Command.named "does-not-exist")
    ∧ registry1 "does-not-exist" = Option.none
    ∧ call_command registry1 (Command.named "does-not-exist")
        = Except.error "No such command: does-not-exist"
    ∧ (handle_keypress registry1 kmEmpty { KeyEater.init with localKeyMap := Option.some kmBad, useGlobalKeymap := false } gKey).errors
        = ["No such command: does-not-exist"]
    ∧ (handle_keypress registry1 kmEmpty { KeyEater.init with localKeyMap := Option.some kmBad, useGlobalKeymap := false } gKey).calls
        = []
    ∧ (handle_keypress registry1 kmEmpty { KeyEater.init with localKeyMap := Option.some kmBad, useGlobalKeymap := false } gKey).handled
        = true
    ∧ (handle_keypress registry1 kmEmpty { KeyEater.init with localKeyMap := Option.some kmBad, useGlobalKeymap := false } gKey).state.keypresses
        = []
    ∧ (handle_keypress registry1 kmEmpty { KeyEater.init with localKeyMap := Option.some kmBad, useGlobalKeymap := false } gKey).state.resetPrefixArg
        = true := by
  have main := unknown_command_error registry1 kmEmpty
    { KeyEater.init with localKeyMap := Option.some kmBad, useGlobalKeymap := false }
    gKey kmBad "does-not-exist" ⟨by decide, rfl⟩ rfl rfl rfl rfl
  exact ⟨⟨by decide, rfl⟩, rfl, rfl, rfl, rfl, main.1, main.2.1, main.2.2.1,
    main.2.2.2.1, main.2.2.2.2.1, main.2.2.2.2.2⟩

/-- C6: the claim says the universal-key and digit-extension paths never
populate the pending chord used for keymap lookup.  The code refutes this:
`_add_keypress` appends the key to `self._keypresses`, the very list the
lookup loop passes to every keymap, so after a fresh `C-u` the pending chord
is `[C-u]`, and a following press of a key bound as a complete single-key
chord looks up `[C-u, g]`, misses, calls nothing and returns `False` —
while without the `C-u` the same press invokes the bound command. -/
theorem universal_key_populates_chord :
    (handle_keypress emptyRegistry kmG KeyEater.init universalKey).state.keypresses
        = [universalKey]
    ∧ (handle_keypress emptyRegistry kmG
        (handle_keypress emptyRegistry kmG KeyEater.init universalKey).state gKey).handled
        = false
    ∧ (handle_keypress emptyRegistry kmG
        (handle_keypress emptyRegistry kmG KeyEater.init universalKey).state gKey).calls
        = []
    ∧ kmG [gKey] = LookupResult.completeMatch (Command.direct 5)
    ∧ (handle_keypress emptyRegistry kmG KeyEater.init gKey).calls
        = [{ callee := 5, seenPrefixArg := PrefixArg.none }] := by
  decide

/-- C8: the claim says destruction events for unregistered objects are
tolerated as no-ops.  The code refutes this: `view_destroyed` and
`_minibuffer_input_destroyed` call `list.remove`, which raises `ValueError`
when the object was never registered (or was already deregistered). -/
theorem destroy_unregistered_raises :
    view_destroyed { views := [], minibufferInputs := [] } 7
        = Except.error "ValueError: list.remove(x): x not in list"
    ∧ minibuffer_input_destroyed { views := [], minibufferInputs := [] } 7
        = Except.error "ValueError: list.remove(x): x not in list"
    ∧ view_destroyed { views := [4], minibufferInputs := [4] } 7
        = Except.error "ValueError: list.remove(x): x not in list"
    ∧ minibuffer_input_destroyed { views := [4], minibufferInputs := [4] } 7
        = Except.error "ValueError: list.remove(x): x not in list" :=
  ⟨rfl, rfl, rfl, rfl⟩

/-- C9: when editable-content focus toggles on, the local keymap becomes the
content's dedicated edit keymap; when it toggles off with the minibuffer
input unfocused, the local keymap reverts to the owning view's buffer
keymap; when it toggles off while the minibuffer input holds focus, the
dispatcher state is left entirely unchanged. -/
theorem edit_focus_keymap_switch (eater : KeyEater) (w : Window) :
    ((web_content_edit_focus_changed eater w true).localKeyMap
        = Option.some w.currentBuffer.contentEditKeymap)
    ∧ (w.minibufferInputHasFocus = false →
        (web_content_edit_focus_changed eater w false).localKeyMap
          = Option.some w.currentBuffer.keymap)
    ∧ (w.minibufferInputHasFocus = true →
        web_content_edit_focus_changed eater w false = eater) := by
  refine ⟨rfl, ?_, ?_⟩ <;> intro hf <;>
    simp [web_content_edit_focus_changed, set_local_key_map, hf]

/-- Witness for C9 at concrete windows: `window0` has an unfocused
minibuffer input, `window1` a focused one. -/
theorem edit_focus_keymap_switch_witness :
    window0.minibufferInputHasFocus = false
    ∧ (web_content_edit_focus_changed KeyEater.init window0 false).localKeyMap
        = Option.some window0.currentBuffer.keymap
    ∧ window1.minibufferInputHasFocus = true
    ∧ web_content_edit_focus_changed KeyEater.init window1 false = KeyEater.init :=
  ⟨rfl, (edit_focus_keymap_switch KeyEater.init window0).2.1 rfl, rfl,
   (edit_focus_keymap_switch KeyEater.init window1).2.2 rfl⟩

/-- C10: `set_local_key_map` replaces only the local-keymap reference; the
pending chord, the prefix argument, the deferred-reset flag, the
global-keymap-enabled flag and the redirection target are untouched, and the
active-keymap list of the next lookup starts with the new keymap while the
pending chord (hence the chord of the next lookup) is retained. -/
theorem set_local_key_map_frame (s : KeyEater) (km : Option Keymap) :
    (set_local_key_map s km).localKeyMap = km
    ∧ (set_local_key_map s km).keypresses = s.keypresses
    ∧ (set_local_key_map s km).prefixArg = s.prefixArg
    ∧ (set_local_key_map s km).resetPrefixArg = s.resetPrefixArg
    ∧ (set_local_key_map s km).useGlobalKeymap = s.useGlobalKeymap
    ∧ (set_local_key_map s km).currentObj = s.currentObj
    ∧ (∀ gmap lkm : Keymap,
        active_keymaps (set_local_key_map s (Option.some lkm)) gmap
          = [lkm] ++ (if s.useGlobalKeymap then [gmap] else [])) :=
  ⟨rfl, rfl, rfl, rfl, rfl, rfl, fun _ _ => rfl⟩

end Webmacs
